import Mathlib

/-!
Shallow embedding of src/puma/utils/truth_hadron.py.

The source file manipulates rectangular numpy arrays whose rows are jets.
Rows are modelled as Lean lists; a (n_jets, width) numpy array becomes a
List (List _).  The float NaN that the source uses as a "missing index"
sentinel becomes Option Nat (none = NaN); numpy boolean 0/1 integer masks
become List Nat with entries 0 or 1.
-/

/-- Count of True entries of a boolean row: np.sum over a boolean array. -/
def countTrue (l : List Bool) : Nat := (l.filter id).length

/-- Index of the first entry satisfying p, as np.argmax scans left to right.
None when no entry satisfies p. -/
def firstIdxWhere (p : α → Bool) : List α → Option Nat
  | [] => none
  | x :: t => if p x then some 0 else (firstIdxWhere p t).map (· + 1)

/-- np.argmax over a boolean row: index of the first True, 0 when the row is
all False (np.argmax of an all-False row is 0). -/
def argmaxBool (l : List Bool) : Nat := (firstIdxWhere (fun b => b) l).getD 0

/-- Maximum of a list of counts, as a fold (0 for the empty list). -/
def listMax (l : List Nat) : Nat := l.foldl max 0

/-- np.argmax over an integer row: first index attaining the maximum. -/
def argmaxList (l : List Nat) : Nat := (firstIdxWhere (fun x => x == listMax l) l).getD 0

/-- Ascending indices of the True entries of a boolean row, as
np.argwhere(row == 1) lists them. -/
def trueIndices : List Bool → List Nat
  | [] => []
  | b :: t => (if b then [0] else []) ++ (trueIndices t).map (· + 1)

/-! ## MaskTracks (src/puma/utils/truth_hadron.py lines 3-13)

MaskTracks(my_data, n_jets, n_tracks) reads my_data["jets"]["n_tracks"],
a per-jet declared track count (one int per jet; n_jets is its length at
every call site).  It tiles track indices 0..n_tracks-1 per jet and marks
a slot real iff its index is below the declared count. -/

/-- MaskTracks: returns (track_mask, n_real_tracks).  Row i of the mask is
1 at slot j iff j < declared[i]; n_real_tracks repeats declared[i] across
the row.  The source contains no shape check and no failure path. -/
def MaskTracks (declared : List Int) (n_tracks : Nat) :
    List (List Nat) × List (List Int) :=
  (declared.map (fun c => (List.range n_tracks).map (fun (j : Nat) => if (j : Int) < c then 1 else 0)),
   declared.map (fun c => List.replicate n_tracks c))

/-! ## ProcessTruthHadrons (src/puma/utils/truth_hadron.py lines 16-87)

Per jet the function sees two rows of my_data["truth_hadrons"]: the
barcode row and the ftagTruthParentBarcode row (rectangular, width
max_n_hadrons, sentinel -1 for absent slots). -/

/-- One jet of truth-hadron data: the barcode row and the
ftagTruthParentBarcode row. -/
structure HadronRow where
  barcode : List Int
  parentBarcode : List Int
deriving Repr, DecidableEq

/-- child row of a jet: np.isin(parent_barcode[i], barcode[i]) followed by
np.where(parent_barcode == -1, False, ...). -/
def childRow (r : HadronRow) : List Bool :=
  r.parentBarcode.map (fun pb => if pb = -1 then false else r.barcode.contains pb)

/-- parent row of a jet: np.isin(barcode[i], parent_barcode[i]) followed by
np.where(barcode == -1, False, ...). -/
def parentRow (r : HadronRow) : List Bool :=
  r.barcode.map (fun b => if b = -1 then false else r.parentBarcode.contains b)

/-- real_hadron row: np.where(barcode == -1, False, True). -/
def realRow (r : HadronRow) : List Bool :=
  r.barcode.map (fun b => decide (b ≠ -1))

/-- one_hadron flag of a jet: np.sum(real_hadron[i]) == 1. -/
def oneHadronRow (r : HadronRow) : Bool := countTrue (realRow r) == 1

/-- np.sum(parent) of the source, with NO axis argument: the total count of
True entries over the whole (n_jets, max_n_hadrons) parent matrix. -/
def totalParent (jets : List HadronRow) : Nat :=
  (jets.map (fun r => countTrue (parentRow r))).sum

/-- np.sum(child) of the source, with NO axis argument: the total count of
True entries over the whole child matrix. -/
def totalChild (jets : List HadronRow) : Nat :=
  (jets.map (fun r => countTrue (childRow r))).sum

/-- label_hadron_index of one jet (source lines 37-38):
np.where(np.sum(parent) > 0, np.argmax(parent, axis=1), np.nan), then
np.where(one_hadron, 0, ...).  NaN is modelled as none. -/
def labelIdxRow (jets : List HadronRow) (r : HadronRow) : Option Nat :=
  if oneHadronRow r then some 0
  else if 0 < totalParent jets then some (argmaxBool (parentRow r)) else none

/-- child_hadron_index of one jet (source lines 40-41):
np.where(np.sum(child) > 0, np.argmax(child, axis=1), np.nan), then
np.where(one_hadron, np.nan, ...). -/
def childIdxRow (jets : List HadronRow) (r : HadronRow) : Option Nat :=
  if oneHadronRow r then none
  else if 0 < totalChild jets then some (argmaxBool (childRow r)) else none

/-- child2_hadron_index of one jet (source lines 43-51): starts at NaN; when
the jet has at least 2 child-flagged slots, scans np.argwhere(child[i] == 1)
in ascending order and overwrites with every candidate x satisfying
x != child_hadron_index[i] (a comparison with NaN is always True, hence the
match on the Option). -/
def child2IdxRow (jets : List HadronRow) (r : HadronRow) : Option Nat :=
  if 2 ≤ countTrue (childRow r) then
    (trueIndices (childRow r)).foldl
      (fun acc j => if some j = childIdxRow jets r then acc else some j) none
  else none

/-- family row (source line 58): np.where(barcode == -1, False, child | parent). -/
def familyRow (r : HadronRow) : List Bool :=
  List.zipWith (fun b cp => if b = -1 then false else cp) r.barcode
    (List.zipWith (fun c p => c || p) (childRow r) (parentRow r))

/-- good_jets row (source line 61): one_hadron or np.sum(family[i]) > 1. -/
def goodJetRow (r : HadronRow) : Bool :=
  oneHadronRow r || decide (1 < countTrue (familyRow r))

/-- unrelated row (source line 59): more than one real hadron and family sum <= 1. -/
def unrelatedRow (r : HadronRow) : Bool :=
  decide (1 < countTrue (realRow r)) && decide (countTrue (familyRow r) ≤ 1)

/-- Arrays returned by ProcessTruthHadrons (the print diagnostics of the
source affect no returned value and are not modelled). -/
structure TruthHadronOutput where
  goodJets : List Bool
  labelHadronIndex : List (Option Nat)
  childHadronIndex : List (Option Nat)
  child2HadronIndex : List (Option Nat)
  parent : List (List Bool)
  child : List (List Bool)
  oneHadron : List Bool
  unrelated : List Bool
deriving Repr, DecidableEq

/-- ProcessTruthHadrons: assembles, jet by jet, every array the source
returns (hadron_indices is returned by the source as the stack of the three
index arrays; the three components are kept separate here). -/
def ProcessTruthHadrons (jets : List HadronRow) : TruthHadronOutput :=
  ⟨jets.map goodJetRow,
   jets.map (labelIdxRow jets),
   jets.map (childIdxRow jets),
   jets.map (child2IdxRow jets),
   jets.map parentRow,
   jets.map childRow,
   jets.map oneHadronRow,
   jets.map unrelatedRow⟩

/-! ## AssociateTracksToHadron (src/puma/utils/truth_hadron.py lines 90-162) -/

/-- Input of AssociateTracksToHadron: the fields of my_data the function
reads.  nTracks is my_data["tracks"].shape[1] (the rectangular width of the
track rows); n_jets is the number of track rows. -/
structure AssocData where
  jetsNTracks : List Int
  tracksParentBarcode : List (List Int)
  hadronsBarcode : List (List Int)
  nTracks : Nat
deriving Repr, DecidableEq

/-- Error message of the Python UnboundLocalError raised at the return
statement (line 162) when drop_bad_jets is False: jet_track_mask is
assigned only inside the drop_bad_jets branch (line 102). -/
def unboundMsg : String :=
  "UnboundLocalError: local variable referenced before assignment"

/-- jet_track_mask (source line 102): np.repeat(good_jets, n_tracks)
reshaped, then np.where(... == True, 1, 0). -/
def jetTrackMaskOf (d : AssocData) (good : List Bool) : List (List Nat) :=
  good.map (fun g => List.replicate d.nTracks (if g then 1 else 0))

/-- track_mask as used in the jet loop: the MaskTracks mask, combined with
jet_track_mask by bitwise AND (source line 103) when drop_bad_jets. -/
def trackMaskOf (d : AssocData) (good : List Bool) (drop : Bool) : List (List Nat) :=
  let base := (MaskTracks d.jetsNTracks d.nTracks).1
  if drop then List.zipWith (List.zipWith (fun m g => m &&& g)) base (jetTrackMaskOf d good)
  else base

/-- Jets the loop body runs on: i in range(n_jets), skipping i with
good_jets[i] == False when drop_bad_jets (source lines 115-117). -/
def processedIndices (d : AssocData) (good : List Bool) (drop : Bool) : List Nat :=
  (List.range d.tracksParentBarcode.length).filter (fun i => !drop || good.getD i false)

/-- positive_track_barcodes entry (source line 121): np.where(pb < 0, np.nan, pb);
NaN is modelled as none and compares unequal to every barcode. -/
def positiveBarcode (pb : Int) : Option Int := if pb < 0 then none else some pb

/-- np.isin of a masked track barcode against a barcode row (NaN matches nothing). -/
def optIsin (p : Option Int) (l : List Int) : Bool :=
  match p with
  | none => false
  | some v => l.contains v

/-- Equality of a masked track barcode against one hadron barcode. -/
def optEqBarcode (p : Option Int) (b : Int) : Bool :=
  match p with
  | none => false
  | some v => v == b

/-- dummy (source line 113): np.zeros(n_tracks). -/
def dummyOf (d : AssocData) : List Nat := List.replicate d.nTracks 0

/-- inclusive_tracks_to_hadron of jet i (source line 123):
np.where(track_mask[i] == 0, 0, np.isin(positive_track_barcodes, barcode row)). -/
def inclusiveRawOf (d : AssocData) (good : List Bool) (drop : Bool) (i : Nat) : List Nat :=
  List.zipWith
    (fun m pb => if m = 0 then 0 else
      if optIsin (positiveBarcode pb) (d.hadronsBarcode.getD i []) then 1 else 0)
    ((trackMaskOf d good drop).getD i []) (d.tracksParentBarcode.getD i [])

/-- inclusive_vertex entry of jet i (source lines 125-128): the dummy row
when the raw assignment sums to at most 1, the raw assignment otherwise. -/
def inclusiveVertexOf (d : AssocData) (good : List Bool) (drop : Bool) (i : Nat) : List Nat :=
  if (inclusiveRawOf d good drop i).sum ≤ 1 then dummyOf d else inclusiveRawOf d good drop i

/-- tmp_exclusive of jet i against one hadron barcode b (source line 133):
np.where(track_mask[i] == 0, 0, np.isin(positive_track_barcodes, b)). -/
def exclusiveRawOf (d : AssocData) (good : List Bool) (drop : Bool) (i : Nat) (b : Int) :
    List Nat :=
  List.zipWith
    (fun m pb => if m = 0 then 0 else if optEqBarcode (positiveBarcode pb) b then 1 else 0)
    ((trackMaskOf d good drop).getD i []) (d.tracksParentBarcode.getD i [])

/-- tmp_exclusive_list of jet i (source lines 130-138): one row per hadron
slot j in range(n_hadrons), zeroed when its sum is at most 1. -/
def exclusiveVertexOf (d : AssocData) (good : List Bool) (drop : Bool) (i : Nat) :
    List (List Nat) :=
  (d.hadronsBarcode.getD i []).map (fun b =>
    if (exclusiveRawOf d good drop i b).sum ≤ 1 then dummyOf d else exclusiveRawOf d good drop i b)

/-- tmp_n_tracks of jet i (source line 139): the sum of each appended
(already possibly zeroed) exclusive row. -/
def exclusiveCountsOf (d : AssocData) (good : List Bool) (drop : Bool) (i : Nat) : List Nat :=
  (exclusiveVertexOf d good drop i).map List.sum

/-- hadron_index entry of jet i (source lines 142-146): argmax of the
exclusive counts when their sum is positive, -99 otherwise. -/
def hadronIndexOf (d : AssocData) (good : List Bool) (drop : Bool) (i : Nat) : Int :=
  if 0 < (exclusiveCountsOf d good drop i).sum then
    ((argmaxList (exclusiveCountsOf d good drop i) : Nat) : Int)
  else -99

/-- good_hadron_track_association entry of jet i (source lines 144, 147). -/
def goodAssocOf (d : AssocData) (good : List Bool) (drop : Bool) (i : Nat) : Nat :=
  if 0 < (exclusiveCountsOf d good drop i).sum then 1 else 0

/-- The tuple returned by AssociateTracksToHadron (source line 162). -/
structure AssocOutput where
  inclusiveVertex : List (List Nat)
  exclusiveVertex : List (List (List Nat))
  hadronIndex : List Int
  nTracksInclusiveVertex : List Nat
  nTracksExclusiveVertex : List (List Nat)
  trackMask : List (List Nat)
  jetTrackMask : List (List Nat)
  goodHadronTrackAssociation : List Nat
deriving Repr, DecidableEq

/-- The output AssociateTracksToHadron builds when it reaches the return
statement with jet_track_mask bound: every per-jet list is the loop append
over the processed jet indices.  n_tracks_inclusive_vertex records the raw
(pre-zeroing) inclusive sum (source line 124, appended before the zeroing). -/
def assocOut (d : AssocData) (good : List Bool) (drop : Bool) : AssocOutput :=
  ⟨(processedIndices d good drop).map (inclusiveVertexOf d good drop),
   (processedIndices d good drop).map (exclusiveVertexOf d good drop),
   (processedIndices d good drop).map (hadronIndexOf d good drop),
   (processedIndices d good drop).map (fun i => (inclusiveRawOf d good drop i).sum),
   (processedIndices d good drop).map (exclusiveCountsOf d good drop),
   trackMaskOf d good drop,
   jetTrackMaskOf d good,
   (processedIndices d good drop).map (goodAssocOf d good drop)⟩

/-- AssociateTracksToHadron: jet_track_mask is assigned only when
drop_bad_jets (source lines 100-103), and is read unconditionally in the
return tuple (source line 162), so the call raises UnboundLocalError
whenever drop_bad_jets is False; its computed locals are discarded.  The
debug prints affect no returned value and are not modelled. -/
def AssociateTracksToHadron (d : AssocData) (good : List Bool) :
    Bool → Except String AssocOutput
  | true => Except.ok (assocOut d good true)
  | false => Except.error unboundMsg

/-! ## SelectHadronMostTracks (src/puma/utils/truth_hadron.py lines 164-176) -/

/-- Python/numpy indexing of a row by a possibly negative integer: a
negative k counts from the end; out of range raises (none). -/
def pyIndex (l : List α) (k : Int) : Option α :=
  if 0 ≤ k then l.get? k.toNat
  else if 0 ≤ (l.length : Int) + k then l.get? ((l.length : Int) + k).toNat
  else none

/-- Sequencing of a list of optional values: none as soon as one entry is none. -/
def allSome : List (Option α) → Option (List α)
  | [] => some []
  | none :: _ => none
  | some a :: t => (allSome t).map (a :: ·)

/-- SelectHadronMostTracks. invalid_jet_mask is an INTEGER 0/1 array
(np.where(hadron_index == -99, 1, 0).astype(int)); the final line indexes
with ~invalid_jet_mask, the BITWISE complement (0 becomes -1, 1 becomes -2),
which numpy treats as integer fancy indexing from the end of the array, not
as a boolean filter.  The leading length guard models the numpy broadcast
error when hadron_index and the truth-hadron rows disagree in length (the
hadron rows are one record per jet; a record is left abstract as one value
of type A). -/
def SelectHadronMostTracks (truth_hadrons : List (List α)) (hadron_index : List Int) :
    Option (List α) :=
  if truth_hadrons.length = hadron_index.length then
    let invalid_jet_mask : List Int := hadron_index.map (fun h => if h = -99 then 1 else 0)
    let tmp_hadron_index : List Int :=
      List.zipWith (fun inv h => if inv = 1 then 0 else h) invalid_jet_mask hadron_index
    match allSome (List.zipWith pyIndex truth_hadrons tmp_hadron_index) with
    | none => none
    | some selected =>
      allSome ((invalid_jet_mask.map (fun v => -v - 1)).map (fun k => pyIndex selected k))
  else none

/-! ## Helper lemmas -/

lemma sum_replicate_zero (n : Nat) : (List.replicate n (0 : Nat)).sum = 0 := by
  induction n with
  | zero => rfl
  | succ k ih => simp [List.replicate, ih]

lemma sum_pos_of_mem {l : List Nat} {x : Nat} (hx : x ∈ l) (hp : 0 < x) : 0 < l.sum := by
  induction l with
  | nil => cases hx
  | cons y t ih =>
    rcases List.mem_cons.mp hx with h | h
    · subst h; simpa using Or.inl hp
    · simpa using Or.inr (ih h)

lemma sum_zero_of_all {l : List Nat} (h : ∀ x ∈ l, x = 0) : l.sum = 0 := by
  induction l with
  | nil => rfl
  | cons y t ih =>
    have hy := h y (List.mem_cons_self y t)
    have ht := ih (fun x hx => h x (List.mem_cons_of_mem y hx))
    simp [hy, ht]

lemma foldl_max_shift (l : List Nat) : ∀ a : Nat, l.foldl max a = max a (l.foldl max 0) := by
  induction l with
  | nil => intro a; simp
  | cons x t ih =>
    intro a
    simp only [List.foldl_cons]
    rw [ih (max a x), ih (max 0 x)]
    simp [Nat.max_comm, Nat.max_assoc, Nat.max_left_comm]

lemma le_listMax {l : List Nat} {x : Nat} (hx : x ∈ l) : x ≤ listMax l := by
  induction l with
  | nil => cases hx
  | cons y t ih =>
    have hy : listMax (y :: t) = max y (listMax t) := by
      simp only [listMax, List.foldl_cons]
      rw [foldl_max_shift t (max 0 y)]
      simp [listMax]
    rcases List.mem_cons.mp hx with h | h
    · subst h; rw [hy]; exact Nat.le_max_left _ _
    · exact le_trans (ih h) (hy ▸ Nat.le_max_right _ _)

lemma listMax_mem {l : List Nat} (h : l ≠ []) : listMax l ∈ l := by
  induction l with
  | nil => exact absurd rfl h
  | cons y t ih =>
    have hy : listMax (y :: t) = max y (listMax t) := by
      simp only [listMax, List.foldl_cons]
      rw [foldl_max_shift t (max 0 y)]
      simp [listMax]
    by_cases ht : t = []
    · subst ht; simp [listMax]
    · rcases max_choice y (listMax t) with hm | hm
      · rw [hy, hm]; exact List.mem_cons_self y t
      · rw [hy, hm]; exact List.mem_cons_of_mem y (ih ht)

lemma firstIdxWhere_spec {p : α → Bool} :
    ∀ {l : List α} {k : Nat}, firstIdxWhere p l = some k →
      ∃ v, l.get? k = some v ∧ p v = true := by
  intro l
  induction l with
  | nil => intro k h; cases h
  | cons x t ih =>
    intro k h
    by_cases hx : p x
    · simp only [firstIdxWhere, hx, if_pos] at h
      cases h
      exact ⟨x, rfl, hx⟩
    · simp only [firstIdxWhere, hx, if_neg, Bool.false_eq_true, not_false_iff] at h
      rcases Option.map_eq_some'.mp h with ⟨k0, hk0, hk⟩
      rcases ih hk0 with ⟨v, hv, hpv⟩
      exact ⟨v, by simpa [← hk] using hv, hpv⟩

lemma firstIdxWhere_isSome {p : α → Bool} :
    ∀ {l : List α}, (∃ v ∈ l, p v = true) → ∃ k, firstIdxWhere p l = some k := by
  intro l
  induction l with
  | nil => rintro ⟨v, hv, -⟩; cases hv
  | cons x t ih =>
    rintro ⟨v, hv, hpv⟩
    by_cases hx : p x
    · exact ⟨0, by simp [firstIdxWhere, hx]⟩
    · rcases List.mem_cons.mp hv with h | h
      · subst h; exact absurd hpv (by simpa using hx)
      · rcases ih ⟨v, h, hpv⟩ with ⟨k, hk⟩
        exact ⟨k + 1, by simp [firstIdxWhere, hx, hk]⟩

lemma trueIndices_length (l : List Bool) : (trueIndices l).length = countTrue l := by
  induction l with
  | nil => rfl
  | cons b t ih =>
    cases b <;> simp [trueIndices, countTrue, List.filter] at ih ⊢ <;> omega

lemma trueIndices_sorted (l : List Bool) : (trueIndices l).Pairwise (· < ·) := by
  induction l with
  | nil => exact List.Pairwise.nil
  | cons b t ih =>
    have hmap : ((trueIndices t).map (· + 1)).Pairwise (· < ·) :=
      ih.map _ (fun a b h => Nat.add_lt_add_right h 1)
    cases b
    · simpa [trueIndices] using hmap
    · refine List.pairwise_append.mpr ⟨List.pairwise_singleton _ _, hmap, ?_⟩
      intro x hx y hy
      rcases List.mem_singleton.mp hx with rfl
      rcases List.mem_map.mp hy with ⟨z, -, rfl⟩
      exact Nat.succ_pos z

lemma trueIndices_mem (l : List Bool) : ∀ j, j ∈ trueIndices l ↔ l.get? j = some true := by
  induction l with
  | nil => intro j; simp [trueIndices]
  | cons b t ih =>
    intro j
    cases j with
    | zero =>
      cases b <;> simp [trueIndices, List.mem_map]
    | succ k =>
      cases b <;> simp [trueIndices, List.mem_map, ih k]

lemma overwrite_last (cI : Option Nat) :
    ∀ L : List Nat, L.Pairwise (· < ·) → (∃ j ∈ L, some j ≠ cI) →
      ∃ m, L.foldl (fun acc j => if some j = cI then acc else some j) none = some m ∧
        m ∈ L ∧ some m ≠ cI ∧ ∀ j ∈ L, some j ≠ cI → j ≤ m := by
  intro L
  induction L using List.reverseRecOn with
  | nil => rintro - ⟨j, hj, -⟩; cases hj
  | append_singleton L x ih =>
    intro hp hex
    have hp2 := List.pairwise_append.mp hp
    have hcross : ∀ a ∈ L, a < x := fun a ha =>
      hp2.2.2 a ha x (List.mem_singleton_self x)
    rw [List.foldl_append]
    by_cases hc : some x = cI
    · have hex2 : ∃ j ∈ L, some j ≠ cI := by
        rcases hex with ⟨j, hj, hne⟩
        rcases List.mem_append.mp hj with h | h
        · exact ⟨j, h, hne⟩
        · rcases List.mem_singleton.mp h with rfl
          exact absurd hc hne
      rcases ih hp2.1 hex2 with ⟨m, hfold, hm, hne, hbound⟩
      refine ⟨m, ?_, List.mem_append_left _ hm, hne, ?_⟩
      · simp [hfold, hc]
      · intro j hj hjne
        rcases List.mem_append.mp hj with h | h
        · exact hbound j h hjne
        · rcases List.mem_singleton.mp h with rfl
          exact absurd hc hjne
    · refine ⟨x, ?_, List.mem_append_right _ (List.mem_singleton_self x), hc, ?_⟩
      · simp [hc]
      · intro j hj hjne
        rcases List.mem_append.mp hj with h | h
        · exact Nat.le_of_lt (hcross j h)
        · rcases List.mem_singleton.mp h with rfl
          exact Nat.le_refl _

/-! ## Claim theorems -/

/-- Batch of two jets: jet 0 holds a decay chain (barcode 10 is the parent
of barcode 20), jet 1 holds two unrelated hadrons (no parent relation). -/
def exampleBatch : List HadronRow := [⟨[10, 20], [-1, 10]⟩, ⟨[30, 40], [-1, -1]⟩]

/-- C1: evaluation of the code at a failing input.  Jet 1 is not one_hadron
and contains no parent-flagged slot (its parent row is all False), yet
label_hadron_index[1] is 0 and not the missing sentinel, because the guard
np.sum(parent) on source line 37 is a batch-global sum and jet 0 does
contain a parent-flagged slot. -/
theorem label_index_batch_guard_eval :
    (ProcessTruthHadrons exampleBatch).parent = [[true, false], [false, false]] ∧
    (ProcessTruthHadrons exampleBatch).oneHadron = [false, false] ∧
    (ProcessTruthHadrons exampleBatch).labelHadronIndex = [some 0, some 0] := by decide

/-- C2: evaluation of the code at a failing input.  Jet 1 is not one_hadron
and contains no child-flagged slot (its child row is all False), yet
child_hadron_index[1] is 0 and not the missing sentinel, because the guard
np.sum(child) on source line 40 is a batch-global sum and jet 0 does
contain a child-flagged slot. -/
theorem child_index_batch_guard_eval :
    (ProcessTruthHadrons exampleBatch).child = [[false, true], [false, false]] ∧
    (ProcessTruthHadrons exampleBatch).oneHadron = [false, false] ∧
    (ProcessTruthHadrons exampleBatch).childHadronIndex = [some 1, some 0] := by decide

/-- Two jets of one truth-hadron record each (a record abstracted to its
barcode value), with jet 0 carrying the -99 sentinel. -/
def exampleTruthHadrons : List (List Int) := [[10], [20]]

/-- Per-jet best hadron index with the sentinel on jet 0. -/
def exampleHadronIndex : List Int := [-99, 0]

/-- C3: evaluation of the code at a failing input.  With jet 0 carrying
the -99 sentinel, the result should be the single record [20]; instead the
bitwise complement of the INTEGER invalid_jet_mask is the fancy index
[-2, -1], so both jets survive and the sentinel jet contributes the record
10: the output has length 2 while only 1 jet has a valid index. -/
theorem select_hadron_no_filter_eval :
    SelectHadronMostTracks exampleTruthHadrons exampleHadronIndex = some [10, 20] ∧
    (exampleHadronIndex.filter (fun h => !(h == -99))).length = 1 := by decide

/-- C9 counterexample: a jet declaring 7 tracks with fixed width 5 does not
make MaskTracks fail; the call returns a full mask row of ones (the source
has no shape check and no failure path at all). -/
theorem mask_tracks_no_shape_check_counterexample :
    MaskTracks [7] 5 = ([[1, 1, 1, 1, 1]], [[7, 7, 7, 7, 7]]) := by decide

lemma mask_row_all_ones (c : Int) :
    ∀ w : Nat, (w : Int) ≤ c →
      (List.range w).map (fun (j : Nat) => if (j : Int) < c then (1 : Nat) else 0) =
        List.replicate w 1 := by
  intro w
  induction w with
  | zero => intro _; rfl
  | succ k ih =>
    intro hw
    have hk : (k : Int) ≤ c := le_trans (by exact_mod_cast Nat.le_succ k) hw
    have hklt : (k : Int) < c := lt_of_lt_of_le (by exact_mod_cast Nat.lt_succ_self k) hw
    rw [List.range_succ, List.map_append, ih hk, List.replicate_succ']
    simp [hklt]

/-- C9 amended: when a jet declares at least as many tracks as the fixed
width, MaskTracks returns normally and that jet's mask row marks every slot
real (all ones); a mask row is produced for every jet. -/
theorem mask_tracks_overflow_row_all_ones (declared : List Int) (w i : Nat) (c : Int)
    (hc : declared.get? i = some c) (hw : (w : Int) ≤ c) :
    (MaskTracks declared w).1.get? i = some (List.replicate w 1) ∧
    (MaskTracks declared w).1.length = declared.length := by
  constructor
  · have h1 : (MaskTracks declared w).1 =
        declared.map (fun c => (List.range w).map (fun (j : Nat) => if (j : Int) < c then 1 else 0)) := rfl
    rw [h1, List.get?_map, hc, Option.map_some']
    exact congrArg some (mask_row_all_ones c w hw)
  · simp [MaskTracks]

/-- C9 amended, witness at declared count 7 and width 5. -/
theorem mask_tracks_overflow_witness :
    ([(7 : Int)] : List Int).get? 0 = some 7 ∧ ((5 : Nat) : Int) ≤ 7 ∧
    ((MaskTracks [7] 5).1.get? 0 = some (List.replicate 5 1) ∧
      (MaskTracks [7] 5).1.length = ([(7 : Int)] : List Int).length) :=
  ⟨by decide, by decide, mask_tracks_overflow_row_all_ones [7] 5 0 7 (by decide) (by decide)⟩

/-- C10: for every input, AssociateTracksToHadron with drop_bad_jets False
stops with the unbound-variable error (jet_track_mask is only assigned in
the drop_bad_jets branch and is read in the return tuple), and with
drop_bad_jets True it returns its results normally. -/
theorem assoc_unbound_without_drop_bad_jets :
    (∀ (d : AssocData) (good : List Bool),
      AssociateTracksToHadron d good false = Except.error unboundMsg) ∧
    (∀ (d : AssocData) (good : List Bool),
      AssociateTracksToHadron d good true = Except.ok (assocOut d good true)) :=
  ⟨fun _ _ => rfl, fun _ _ => rfl⟩

/-- C6: every jet flagged one_hadron gets label_hadron_index 0 and the
missing sentinel as child_hadron_index, by the unconditional overrides on
source lines 38 and 41. -/
theorem one_hadron_label_and_child_index (jets : List HadronRow) (i : Nat) (r : HadronRow)
    (hi : jets.get? i = some r) (hone : oneHadronRow r = true) :
    (ProcessTruthHadrons jets).labelHadronIndex.get? i = some (some 0) ∧
    (ProcessTruthHadrons jets).childHadronIndex.get? i = some none := by
  constructor
  · have h1 : (ProcessTruthHadrons jets).labelHadronIndex = jets.map (labelIdxRow jets) := rfl
    rw [h1, List.get?_map, hi, Option.map_some']
    simp [labelIdxRow, hone]
  · have h1 : (ProcessTruthHadrons jets).childHadronIndex = jets.map (childIdxRow jets) := rfl
    rw [h1, List.get?_map, hi, Option.map_some']
    simp [childIdxRow, hone]

/-- C6 witness: a jet whose only real hadron sits at slot 0 of two slots. -/
theorem one_hadron_label_and_child_index_witness :
    ([⟨[10, -1], [-1, -1]⟩] : List HadronRow).get? 0 = some ⟨[10, -1], [-1, -1]⟩ ∧
    oneHadronRow ⟨[10, -1], [-1, -1]⟩ = true ∧
    ((ProcessTruthHadrons [⟨[10, -1], [-1, -1]⟩]).labelHadronIndex.get? 0 = some (some 0) ∧
      (ProcessTruthHadrons [⟨[10, -1], [-1, -1]⟩]).childHadronIndex.get? 0 = some none) :=
  ⟨by decide, by decide,
    one_hadron_label_and_child_index [⟨[10, -1], [-1, -1]⟩] 0 ⟨[10, -1], [-1, -1]⟩
      (by decide) (by decide)⟩

/-- Child flag following the claim wording for C4 (refinement comparison):
slot j is a child when its parent_barcode equals the barcode of some OTHER
slot of the same jet. -/
def specOtherSlotChildRow (r : HadronRow) : List Bool :=
  (List.range r.parentBarcode.length).map (fun j =>
    match r.parentBarcode.get? j with
    | none => false
    | some pb =>
      if pb = -1 then false
      else (List.range r.barcode.length).any
        (fun k => (k != j) && (r.barcode.getD k (-1) == pb)))

/-- Parent flag following the claim wording for C4 (refinement comparison):
slot j is a parent when its barcode equals the parent_barcode of some OTHER
slot of the same jet. -/
def specOtherSlotParentRow (r : HadronRow) : List Bool :=
  (List.range r.barcode.length).map (fun j =>
    match r.barcode.get? j with
    | none => false
    | some b =>
      if b = -1 then false
      else (List.range r.parentBarcode.length).any
        (fun k => (k != j) && (r.parentBarcode.getD k (-1) == b)))

/-- C4 counterexample: a single-slot jet whose hadron lists its own barcode
as its parent_barcode.  np.isin tests membership over ALL slots of the jet,
including the slot itself, so the code flags the slot as both child and
parent, while the claim (match against some OTHER slot) would leave both
flags False. -/
theorem child_parent_other_slot_counterexample :
    childRow ⟨[5], [5]⟩ ≠ specOtherSlotChildRow ⟨[5], [5]⟩ ∧
    parentRow ⟨[5], [5]⟩ ≠ specOtherSlotParentRow ⟨[5], [5]⟩ ∧
    childRow ⟨[5], [5]⟩ = [true] ∧ parentRow ⟨[5], [5]⟩ = [true] := by decide

/-- C4 amended: child[i][j] is True exactly when slot j's parent_barcode is
not the -1 sentinel and equals the barcode of some slot of the same jet
(possibly slot j itself), and parent[i][j] is True exactly when slot j's
barcode is not the -1 sentinel and equals the parent_barcode of some slot
of the same jet (possibly slot j itself). -/
theorem child_parent_flag_characterisation (jets : List HadronRow) (i : Nat) (r : HadronRow)
    (hi : jets.get? i = some r) (j : Nat) (pb b : Int)
    (hpb : r.parentBarcode.get? j = some pb) (hb : r.barcode.get? j = some b) :
    (((ProcessTruthHadrons jets).child.get? i).bind (fun row => row.get? j) = some true ↔
      pb ≠ -1 ∧ ∃ k, r.barcode.get? k = some pb) ∧
    (((ProcessTruthHadrons jets).parent.get? i).bind (fun row => row.get? j) = some true ↔
      b ≠ -1 ∧ ∃ k, r.parentBarcode.get? k = some b) := by
  have hchild : (ProcessTruthHadrons jets).child = jets.map childRow := rfl
  have hparent : (ProcessTruthHadrons jets).parent = jets.map parentRow := rfl
  constructor
  · rw [hchild, List.get?_map, hi, Option.map_some', Option.some_bind]
    have hrow : (childRow r).get? j =
        some (if pb = -1 then false else r.barcode.contains pb) := by
      unfold childRow
      rw [List.get?_map, hpb, Option.map_some']
    rw [hrow]
    by_cases hs : pb = -1
    · simp [hs]
    · simp only [hs, if_neg, Option.some_inj, ne_eq, not_false_iff, true_and]
      constructor
      · intro hcon
        exact List.mem_iff_get?.mp (List.elem_iff.mp hcon)
      · intro hex
        exact List.elem_iff.mpr (List.mem_iff_get?.mpr hex)
  · rw [hparent, List.get?_map, hi, Option.map_some', Option.some_bind]
    have hrow : (parentRow r).get? j =
        some (if b = -1 then false else r.parentBarcode.contains b) := by
      unfold parentRow
      rw [List.get?_map, hb, Option.map_some']
    rw [hrow]
    by_cases hs : b = -1
    · simp [hs]
    · simp only [hs, if_neg, Option.some_inj, ne_eq, not_false_iff, true_and]
      constructor
      · intro hcon
        exact List.mem_iff_get?.mp (List.elem_iff.mp hcon)
      · intro hex
        exact List.elem_iff.mpr (List.mem_iff_get?.mpr hex)

/-- C4 amended, witness: the decay-chain jet of the example batch, read at
slot 1 (parent_barcode 10, barcode 20). -/
theorem child_parent_flag_characterisation_witness :
    exampleBatch.get? 0 = some ⟨[10, 20], [-1, 10]⟩ ∧
    (⟨[10, 20], [-1, 10]⟩ : HadronRow).parentBarcode.get? 1 = some 10 ∧
    (⟨[10, 20], [-1, 10]⟩ : HadronRow).barcode.get? 1 = some 20 ∧
    ((((ProcessTruthHadrons exampleBatch).child.get? 0).bind (fun row => row.get? 1) =
        some true ↔
      (10 : Int) ≠ -1 ∧ ∃ k, (⟨[10, 20], [-1, 10]⟩ : HadronRow).barcode.get? k = some 10) ∧
     (((ProcessTruthHadrons exampleBatch).parent.get? 0).bind (fun row => row.get? 1) =
        some true ↔
      (20 : Int) ≠ -1 ∧ ∃ k, (⟨[10, 20], [-1, 10]⟩ : HadronRow).parentBarcode.get? k = some 20)) :=
  ⟨by decide, by decide, by decide,
    child_parent_flag_characterisation exampleBatch 0 ⟨[10, 20], [-1, 10]⟩ (by decide) 1 10 20
      (by decide) (by decide)⟩

/-- Association input with one good jet, two tracks with no truth parent,
and one hadron: no track matches, so every vertex is zeroed. -/
def exampleAssocNoMatch : AssocData := ⟨[2], [[-1, -1]], [[10]], 2⟩

/-- Association input with one good jet, four track slots (three declared
real plus padding handled by the declared count 4), and two hadrons: barcode
8 collects one track and barcode 7 collects two. -/
def exampleAssocTwoHadrons : AssocData := ⟨[4], [[7, 7, 8, -1]], [[8, 7]], 4⟩

/-- C5: for every jet the loop processes, an inclusive assignment with at
most one qualifying track slot is returned as the all-zero row, and an
exclusive assignment against a hadron slot with at most one matching track
slot is returned as the all-zero row with reported track count 0. -/
theorem assoc_small_vertex_zeroed (d : AssocData) (good : List Bool) (k i j : Nat) (b : Int)
    (hk : (processedIndices d good true).get? k = some i)
    (hj : (d.hadronsBarcode.getD i []).get? j = some b) :
    AssociateTracksToHadron d good true = Except.ok (assocOut d good true) ∧
    ((inclusiveRawOf d good true i).sum ≤ 1 →
      (assocOut d good true).inclusiveVertex.get? k = some (List.replicate d.nTracks 0)) ∧
    ((exclusiveRawOf d good true i b).sum ≤ 1 →
      ((assocOut d good true).exclusiveVertex.get? k).bind (fun rows => rows.get? j) =
        some (List.replicate d.nTracks 0) ∧
      ((assocOut d good true).nTracksExclusiveVertex.get? k).bind (fun cs => cs.get? j) =
        some 0) := by
  refine ⟨rfl, ?_, ?_⟩
  · intro hle
    have h1 : (assocOut d good true).inclusiveVertex =
        (processedIndices d good true).map (inclusiveVertexOf d good true) := rfl
    rw [h1, List.get?_map, hk, Option.map_some']
    unfold inclusiveVertexOf
    rw [if_pos hle]
    rfl
  · intro hle
    have h2 : (assocOut d good true).exclusiveVertex =
        (processedIndices d good true).map (exclusiveVertexOf d good true) := rfl
    have h3 : (assocOut d good true).nTracksExclusiveVertex =
        (processedIndices d good true).map (exclusiveCountsOf d good true) := rfl
    constructor
    · rw [h2, List.get?_map, hk, Option.map_some', Option.some_bind]
      have h4 : (exclusiveVertexOf d good true i).get? j =
          some (if (exclusiveRawOf d good true i b).sum ≤ 1 then dummyOf d
                else exclusiveRawOf d good true i b) := by
        unfold exclusiveVertexOf
        rw [List.get?_map, hj, Option.map_some']
      rw [h4, if_pos hle]
      rfl
    · rw [h3, List.get?_map, hk, Option.map_some', Option.some_bind]
      have h5 : (exclusiveCountsOf d good true i).get? j =
          some ((if (exclusiveRawOf d good true i b).sum ≤ 1 then dummyOf d
                 else exclusiveRawOf d good true i b).sum) := by
        unfold exclusiveCountsOf exclusiveVertexOf
        rw [List.get?_map, List.get?_map, hj, Option.map_some', Option.map_some']
      rw [h5, if_pos hle]
      exact congrArg some (sum_replicate_zero d.nTracks)

/-- C5 witness: the no-match input, jet 0, hadron slot 0. -/
theorem assoc_small_vertex_zeroed_witness :
    (processedIndices exampleAssocNoMatch [true] true).get? 0 = some 0 ∧
    (exampleAssocNoMatch.hadronsBarcode.getD 0 []).get? 0 = some 10 ∧
    (AssociateTracksToHadron exampleAssocNoMatch [true] true =
        Except.ok (assocOut exampleAssocNoMatch [true] true) ∧
      ((inclusiveRawOf exampleAssocNoMatch [true] true 0).sum ≤ 1 →
        (assocOut exampleAssocNoMatch [true] true).inclusiveVertex.get? 0 =
          some (List.replicate exampleAssocNoMatch.nTracks 0)) ∧
      ((exclusiveRawOf exampleAssocNoMatch [true] true 0 10).sum ≤ 1 →
        ((assocOut exampleAssocNoMatch [true] true).exclusiveVertex.get? 0).bind
            (fun rows => rows.get? 0) = some (List.replicate exampleAssocNoMatch.nTracks 0) ∧
        ((assocOut exampleAssocNoMatch [true] true).nTracksExclusiveVertex.get? 0).bind
            (fun cs => cs.get? 0) = some 0)) :=
  ⟨by decide, by decide,
    assoc_small_vertex_zeroed exampleAssocNoMatch [true] 0 0 0 10 (by decide) (by decide)⟩

/-- C8: for every jet the loop processes, when some exclusive track count is
positive the returned hadron index is a slot index whose count equals the
maximum of the exclusive counts, and when every exclusive count is zero the
returned hadron index is the -99 sentinel. -/
theorem assoc_best_hadron_index (d : AssocData) (good : List Bool) (k i : Nat)
    (hk : (processedIndices d good true).get? k = some i) :
    AssociateTracksToHadron d good true = Except.ok (assocOut d good true) ∧
    ((∃ x ∈ exclusiveCountsOf d good true i, 0 < x) →
      ∃ m : Nat, (assocOut d good true).hadronIndex.get? k = some ((m : Nat) : Int) ∧
        (exclusiveCountsOf d good true i).get? m =
          some (listMax (exclusiveCountsOf d good true i)) ∧
        ∀ x ∈ exclusiveCountsOf d good true i,
          x ≤ listMax (exclusiveCountsOf d good true i)) ∧
    ((∀ x ∈ exclusiveCountsOf d good true i, x = 0) →
      (assocOut d good true).hadronIndex.get? k = some (-99)) := by
  have hIdx : (assocOut d good true).hadronIndex =
      (processedIndices d good true).map (hadronIndexOf d good true) := rfl
  refine ⟨rfl, ?_, ?_⟩
  · rintro ⟨x, hx, hxpos⟩
    have hsum : 0 < (exclusiveCountsOf d good true i).sum := sum_pos_of_mem hx hxpos
    have hne : exclusiveCountsOf d good true i ≠ [] := by
      intro h0; rw [h0] at hx; cases hx
    have hmax : listMax (exclusiveCountsOf d good true i) ∈ exclusiveCountsOf d good true i :=
      listMax_mem hne
    rcases @firstIdxWhere_isSome Nat (fun y => y == listMax (exclusiveCountsOf d good true i))
        (exclusiveCountsOf d good true i)
        ⟨listMax (exclusiveCountsOf d good true i), hmax,
          beq_self_eq_true (listMax (exclusiveCountsOf d good true i))⟩
      with ⟨km, hkm⟩
    rcases firstIdxWhere_spec hkm with ⟨v, hv, hvp⟩
    have hveq : v = listMax (exclusiveCountsOf d good true i) := eq_of_beq hvp
    refine ⟨km, ?_, ?_, fun y hy => le_listMax hy⟩
    · rw [hIdx, List.get?_map, hk, Option.map_some']
      unfold hadronIndexOf
      rw [if_pos hsum]
      unfold argmaxList
      rw [hkm]
      rfl
    · rw [hv, hveq]
  · intro hall
    have hz : (exclusiveCountsOf d good true i).sum = 0 := sum_zero_of_all hall
    rw [hIdx, List.get?_map, hk, Option.map_some']
    unfold hadronIndexOf
    rw [hz]
    simp

/-- C8 witness: the two-hadron input; the exclusive counts are [0, 2], the
maximum 2 is attained at slot 1, and the theorem picks that slot. -/
theorem assoc_best_hadron_index_witness :
    (processedIndices exampleAssocTwoHadrons [true] true).get? 0 = some 0 ∧
    (AssociateTracksToHadron exampleAssocTwoHadrons [true] true =
        Except.ok (assocOut exampleAssocTwoHadrons [true] true) ∧
      ((∃ x ∈ exclusiveCountsOf exampleAssocTwoHadrons [true] true 0, 0 < x) →
        ∃ m : Nat,
          (assocOut exampleAssocTwoHadrons [true] true).hadronIndex.get? 0 =
            some ((m : Nat) : Int) ∧
          (exclusiveCountsOf exampleAssocTwoHadrons [true] true 0).get? m =
            some (listMax (exclusiveCountsOf exampleAssocTwoHadrons [true] true 0)) ∧
          ∀ x ∈ exclusiveCountsOf exampleAssocTwoHadrons [true] true 0,
            x ≤ listMax (exclusiveCountsOf exampleAssocTwoHadrons [true] true 0)) ∧
      ((∀ x ∈ exclusiveCountsOf exampleAssocTwoHadrons [true] true 0, x = 0) →
        (assocOut exampleAssocTwoHadrons [true] true).hadronIndex.get? 0 = some (-99))) :=
  ⟨by decide, assoc_best_hadron_index exampleAssocTwoHadrons [true] 0 0 (by decide)⟩

/-- Single-jet batch with a decay chain: hadron 10 has the two daughters 20
and 30, so slots 1 and 2 are child-flagged. -/
def exampleChainJet : List HadronRow := [⟨[10, 20, 30], [-1, 10, 10]⟩]

/-- C7: for a jet with at least 2 child-flagged slots, child2_hadron_index
is the highest-indexed child-flagged slot that differs from
child_hadron_index (the loop scans candidates in ascending slot order and
overwrites on every differing one); with fewer than 2 child-flagged slots
it stays the missing sentinel. -/
theorem child2_highest_differing_index (jets : List HadronRow) (i : Nat) (r : HadronRow)
    (hi : jets.get? i = some r) :
    (2 ≤ countTrue (childRow r) →
      ∃ m, (ProcessTruthHadrons jets).child2HadronIndex.get? i = some (some m) ∧
        (childRow r).get? m = some true ∧ childIdxRow jets r ≠ some m ∧
        ∀ j, (childRow r).get? j = some true → childIdxRow jets r ≠ some j → j ≤ m) ∧
    (countTrue (childRow r) < 2 →
      (ProcessTruthHadrons jets).child2HadronIndex.get? i = some none) := by
  have hC2 : (ProcessTruthHadrons jets).child2HadronIndex = jets.map (child2IdxRow jets) := rfl
  constructor
  · intro h2
    have hlen : 2 ≤ (trueIndices (childRow r)).length := by
      rw [trueIndices_length]; exact h2
    have hsorted := trueIndices_sorted (childRow r)
    have hex : ∃ j ∈ trueIndices (childRow r), some j ≠ childIdxRow jets r := by
      cases hcI : childIdxRow jets r with
      | none =>
        rcases List.exists_mem_of_length_pos (lt_of_lt_of_le (by omega) hlen) with ⟨j, hj⟩
        exact ⟨j, hj, Option.some_ne_none j⟩
      | some kI =>
        rcases hL : trueIndices (childRow r) with - | ⟨x, tl⟩
        · rw [hL] at hlen; simp at hlen
        rcases tl with - | ⟨y, t⟩
        · rw [hL] at hlen; simp at hlen
        rw [hL] at hsorted
        have hxy : x < y := (List.pairwise_cons.mp hsorted).1 y (List.mem_cons_self y t)
        by_cases hxk : x = kI
        · refine ⟨y, List.mem_cons_of_mem x (List.mem_cons_self y t), ?_⟩
          intro hcon
          have hyk : y = kI := Option.some_inj.mp hcon
          omega
        · refine ⟨x, List.mem_cons_self x (y :: t), ?_⟩
          intro hcon
          exact hxk (Option.some_inj.mp hcon)
    rcases overwrite_last (childIdxRow jets r) (trueIndices (childRow r)) hsorted hex
      with ⟨m, hfold, hm, hmne, hbound⟩
    refine ⟨m, ?_, (trueIndices_mem (childRow r) m).mp hm, Ne.symm hmne, ?_⟩
    · rw [hC2, List.get?_map, hi, Option.map_some']
      refine congrArg some ?_
      unfold child2IdxRow
      rw [if_pos h2]
      exact hfold
    · intro j hjt hjne
      exact hbound j ((trueIndices_mem (childRow r) j).mpr hjt) (Ne.symm hjne)
  · intro hlt
    rw [hC2, List.get?_map, hi, Option.map_some']
    unfold child2IdxRow
    rw [if_neg (by omega)]

/-- C7 witness: the decay-chain jet with child slots 1 and 2;
child_hadron_index is slot 1 and child2 must be the higher slot 2. -/
theorem child2_highest_differing_index_witness :
    exampleChainJet.get? 0 = some ⟨[10, 20, 30], [-1, 10, 10]⟩ ∧
    ((2 ≤ countTrue (childRow ⟨[10, 20, 30], [-1, 10, 10]⟩) →
      ∃ m, (ProcessTruthHadrons exampleChainJet).child2HadronIndex.get? 0 = some (some m) ∧
        (childRow ⟨[10, 20, 30], [-1, 10, 10]⟩).get? m = some true ∧
        childIdxRow exampleChainJet ⟨[10, 20, 30], [-1, 10, 10]⟩ ≠ some m ∧
        ∀ j, (childRow ⟨[10, 20, 30], [-1, 10, 10]⟩).get? j = some true →
          childIdxRow exampleChainJet ⟨[10, 20, 30], [-1, 10, 10]⟩ ≠ some j → j ≤ m) ∧
    (countTrue (childRow ⟨[10, 20, 30], [-1, 10, 10]⟩) < 2 →
      (ProcessTruthHadrons exampleChainJet).child2HadronIndex.get? 0 = some none)) :=
  ⟨by decide,
    child2_highest_differing_index exampleChainJet 0 ⟨[10, 20, 30], [-1, 10, 10]⟩ (by decide)⟩
